import Mathlib

/-!
Verification of the moderation-report Discord bot (src/main.ts).

The development shallowly embeds the pure core of the program:

* the fragment codec (encodeFragment / decodeFragment, main.ts lines 34-50),
* the relative-duration parser (relativeTimeUnits / parseRelativeTime,
  main.ts lines 75-104),
* the three event handlers, modelled as pure functions from the event
  payload (and a message-fetch environment standing for the chat platform)
  to the ordered list of external effects they perform:
  the report command (lines 156-264), the component-click handler
  (lines 267-355) and the modal-submit handler (lines 359-434).

JavaScript regular expressions are embedded as explicit character-list
scanners with the exact same semantics on the relevant character classes
(the source uses no `u` or `m` or `s` regex flags, so a dot excludes the
four JS line terminators, \w is [A-Za-z0-9_], \s is the JS whitespace
set, and the anchors ^ and $ are begin and end of the whole string).
-/

/- ## Character classes of the embedded JS regexes -/

/-- JS regex `\w` without the `u` flag: `[A-Za-z0-9_]`. -/
def isWordChar (c : Char) : Bool :=
  (97 ≤ c.toNat && c.toNat ≤ 122) || (65 ≤ c.toNat && c.toNat ≤ 90) ||
  (48 ≤ c.toNat && c.toNat ≤ 57) || c.toNat == 95

/-- JS regex `\d`: `[0-9]`. -/
def isDigitChar (c : Char) : Bool :=
  48 ≤ c.toNat && c.toNat ≤ 57

/-- The four JS line terminators, which `.` does not match (no `s` flag). -/
def isLineTerminator (c : Char) : Bool :=
  c.toNat == 10 || c.toNat == 13 || c.toNat == 8232 || c.toNat == 8233

/-- JS regex `\s`: the ECMAScript WhiteSpace and LineTerminator sets. -/
def isWsChar (c : Char) : Bool :=
  c.toNat == 9 || c.toNat == 10 || c.toNat == 11 || c.toNat == 12 ||
  c.toNat == 13 || c.toNat == 32 || c.toNat == 160 || c.toNat == 5760 ||
  (8192 ≤ c.toNat && c.toNat ≤ 8202) || c.toNat == 8232 ||
  c.toNat == 8233 || c.toNat == 8239 || c.toNat == 8287 ||
  c.toNat == 12288 || c.toNat == 65279

/- ## Fragment codec (main.ts lines 34-50) -/

/-- The decoded form of an interaction identifier: `{ name, args }`. -/
structure Fragment where
  name : String
  args : List String
deriving DecidableEq, Repr

/-- `Array.prototype.join(",")` of JavaScript: comma-join with no escaping,
empty string on the empty array. -/
def joinComma : List String → String
  | [] => ""
  | [a] => a
  | a :: b :: rest => a ++ "," ++ joinComma (b :: rest)

/-- `encodeFragment(name, ...args)`: wraps the comma-joined args as
`name(arg1,arg2,...)` (main.ts line 35). -/
def encodeFragment (name : String) (args : List String) : String :=
  name ++ "(" ++ joinComma args ++ ")"

/-- Prepend a character to the first piece of a split (used only on
nonempty split results; the nil case is unreachable). -/
def consHead (c : Char) : List (List Char) → List (List Char)
  | [] => [[c]]
  | h :: t => (c :: h) :: t

/-- `String.prototype.split(",")` of JavaScript on a character list:
splits at every comma, keeping empty pieces; the result is never empty. -/
def splitComma : List Char → List (List Char)
  | [] => [[]]
  | c :: rest => if c = ',' then [] :: splitComma rest else consHead c (splitComma rest)

/-- The `name(args)` body check of `decodeFragment`: the remainder after
`name(` must be `inner ++ [the closing parenthesis]` with `inner` the capture
of `(.+)` — nonempty and free of line terminators — anchored by `$` at the
very end of the string. -/
def decodeBody (name body : List Char) : Option Fragment :=
  match body.getLast? with
  | some ')' =>
    if body.dropLast.isEmpty || body.dropLast.any isLineTerminator then none
    else some ⟨String.mk name, (splitComma body.dropLast).map String.mk⟩
  | _ => none

/-- `decodeFragment` on the character list: the JS regex `^(\w+)\((.+)\)$`.
`(\w+)` anchored at `^` and followed by a literal `(` captures exactly the
maximal nonempty word-character prefix; the rest of the string must be the
argument body handled by `decodeBody`. -/
def decodeFragmentAux (cs : List Char) : Option Fragment :=
  match cs.takeWhile isWordChar, cs.dropWhile isWordChar with
  | n :: ns, '(' :: body => decodeBody (n :: ns) body
  | _, _ => none

/-- `decodeFragment(data)` (main.ts lines 38-50): matches
`^(\w+)\((.+)\)$`, returning `none` ("no match") on failure, otherwise the
name capture and the comma-split of the argument capture. -/
def decodeFragment (data : String) : Option Fragment :=
  decodeFragmentAux data.data

/- ## Duration parser (main.ts lines 75-104) -/

/-- `parseInt` on the digit capture of the duration regex: the numeric value
of a nonempty decimal digit string (exact-integer model; the IEEE rounding of
JS numbers above 2^53 is outside the model). -/
def digitsVal (ds : List Char) : Nat :=
  ds.foldl (fun n c => n * 10 + (c.toNat - 48)) 0

/-- The `relativeTimeUnits` lookup table (main.ts lines 76-84); `none` models
a missing key (`undefined`). No entry is `0`, so the truthiness test
`if (unitMultiplier)` of the source coincides with definedness. -/
def relativeTimeUnits : String → Option Nat
  | "y" => some 31104000
  | "year" => some 31104000
  | "years" => some 31104000
  | "mo" => some 2592000
  | "month" => some 2592000
  | "months" => some 2592000
  | "w" => some 604800
  | "week" => some 604800
  | "weeks" => some 604800
  | "d" => some 86400
  | "day" => some 86400
  | "days" => some 86400
  | "h" => some 3600
  | "hour" => some 3600
  | "hours" => some 3600
  | "m" => some 60
  | "min" => some 60
  | "minute" => some 60
  | "minutes" => some 60
  | "s" => some 1
  | "sec" => some 1
  | "second" => some 1
  | "seconds" => some 1
  | _ => none

/-- One attempt of the JS regex `(\d+)\s*(\w+)` to match starting exactly at
the head of `cs`, with the backtracking priority of the JS engine: longest
`\d+` first. With the maximal digit run, `\s*` can only contribute its
maximal whitespace run (a shorter one leaves a whitespace character where
`\w+` needs a word character); if no word character follows it, the engine
gives the last digit back to `\w+` (possible only when there are at least
two digits; `\w` matches digits). Returns the two captures and the
remainder of the string after the match. -/
def matchHere (cs : List Char) : Option (List Char × List Char × List Char) :=
  let ds := cs.takeWhile isDigitChar
  if ds.isEmpty then none
  else
    let afterDigits := cs.drop ds.length
    let ws := afterDigits.takeWhile isWsChar
    let afterWs := afterDigits.drop ws.length
    let us := afterWs.takeWhile isWordChar
    if us.isEmpty then
      if ds.length ≥ 2 then
        let afterShort := cs.drop (ds.length - 1)
        let us2 := afterShort.takeWhile isWordChar
        some (ds.take (ds.length - 1), us2, afterShort.drop us2.length)
      else none
    else some (ds, us, afterWs.drop us.length)

/-- Global scan of `(\d+)\s*(\w+)` (the `g` flag): leftmost match first,
resuming after each match. The fuel argument is the remaining string length;
every successful match consumes at least one character and every failed
position advances one character, so `fuel = cs.length` never runs out. -/
def findRTMatchesAux : Nat → List Char → List (List Char × List Char)
  | 0, _ => []
  | _ + 1, [] => []
  | fuel + 1, c :: cs =>
    match matchHere (c :: cs) with
    | some (ds, us, rest) => (ds, us) :: findRTMatchesAux fuel rest
    | none => findRTMatchesAux fuel cs

/-- All matches of `relativeTimeRegex = /(\d+)\s*(\w+)/g` in the string. -/
def findRTMatches (cs : List Char) : List (List Char × List Char) :=
  findRTMatchesAux cs.length cs

/-- The accumulation loop of `parseRelativeTime`: for each match, look the
unit up and add `parseInt(time) * unitMultiplier`; an unrecognized unit
aborts the whole parse with `null`. -/
def sumMatches : List (List Char × List Char) → Nat → Option Nat
  | [], acc => some acc
  | (ds, us) :: rest, acc =>
    match relativeTimeUnits (String.mk us) with
    | some unitMultiplier => sumMatches rest (acc + digitsVal ds * unitMultiplier)
    | none => none

/-- `parseRelativeTime(input)` (main.ts lines 86-104): `null` when the input
has no match of the token regex, otherwise the sum over all matches of the
lowercased input. `Char.toLower` agrees with the JS `toLowerCase` on the
ASCII inputs the handlers feed in. -/
def parseRelativeTime (input : String) : Option Nat :=
  if findRTMatches input.data = [] then none
  else sumMatches (findRTMatches (input.data.map Char.toLower)) 0

/- ## jsParseInt (the `parseInt(id)` call of the modal handler) -/

/-- Hexadecimal digit test for the `0x` prefix handling of `parseInt`. -/
def isHexDigitChar (c : Char) : Bool :=
  (48 ≤ c.toNat && c.toNat ≤ 57) || (97 ≤ c.toNat && c.toNat ≤ 102) ||
  (65 ≤ c.toNat && c.toNat ≤ 70)

/-- Value of a hexadecimal digit. -/
def hexDigitVal (c : Char) : Nat :=
  if 48 ≤ c.toNat && c.toNat ≤ 57 then c.toNat - 48
  else if 97 ≤ c.toNat && c.toNat ≤ 102 then c.toNat - 87
  else c.toNat - 55

/-- Value of a nonempty hexadecimal digit string. -/
def hexVal (ds : List Char) : Nat :=
  ds.foldl (fun n c => n * 16 + hexDigitVal c) 0

/-- JS `parseInt(s)` with no radix argument: skip leading whitespace, read an
optional sign, detect a `0x`/`0X` prefix (radix 16), else read the maximal
leading run of decimal digits; `none` models `NaN` (no digits). Exact-integer
model: the IEEE rounding of values at or above 2^53 is outside the model. -/
def jsParseInt (s : String) : Option Int :=
  let cs := s.data.dropWhile isWsChar
  let signed : Int × List Char :=
    match cs with
    | '-' :: rest => (-1, rest)
    | '+' :: rest => (1, rest)
    | _ => (1, cs)
  match signed.2 with
  | '0' :: 'x' :: rest =>
    let ds := rest.takeWhile isHexDigitChar
    if ds.isEmpty then none else some (signed.1 * (hexVal ds : Int))
  | '0' :: 'X' :: rest =>
    let ds := rest.takeWhile isHexDigitChar
    if ds.isEmpty then none else some (signed.1 * (hexVal ds : Int))
  | _ =>
    let ds := signed.2.takeWhile isDigitChar
    if ds.isEmpty then none else some (signed.1 * (digitsVal ds : Int))

/- ## External-collaborator vocabulary -/

/-- Modelled from the spec: the action-type vocabulary (`BAN`, `DRAWBAN`,
`MUTE`) is a closed enum shared with the external moderation-action
collaborator (`@free-draw/moderation-client`), whose source is not part of
this repository; the tags are taken from the spec. -/
def ActionType.BAN : String := "BAN"

/-- Modelled from the spec: see `ActionType.BAN`. -/
def ActionType.DRAWBAN : String := "DRAWBAN"

/-- Modelled from the spec: see `ActionType.BAN`. -/
def ActionType.MUTE : String := "MUTE"

/-- Modelled from the spec: the `AccountPlatform.DISCORD` tag of the
moderation-client collaborator, used to attribute an action to the acting
reviewer via the chat platform identity. -/
def AccountPlatform.DISCORD : String := "DISCORD"

/-- `TextInputStyle.Short` of the chat-platform API. -/
def TextInputStyle.Short : Nat := 1

/-- `TextInputStyle.Paragraph` of the chat-platform API. -/
def TextInputStyle.Paragraph : Nat := 2

/-- The actor identity passed to `api.as({ platform, id })`. -/
structure Identity where
  platform : String
  id : String
deriving DecidableEq, Repr

/-- The Action Request payload of `createAction`: `{ type, reason, notes,
duration }`. Fields are optional exactly as in the source: `type` comes from
a destructured fragment argument (undefined when absent), `reason` and
`notes` from the modal field record, and `duration` is
`parseRelativeTime(options.duration) ?? undefined` — `none` means the field
is omitted (permanent sanction). -/
structure ActionRequest where
  type : Option String
  reason : Option String
  notes : Option String
  duration : Option Nat
deriving DecidableEq, Repr

/-- One text-input field descriptor of the modal shown on an accept click. -/
structure TextField where
  custom_id : String
  style : Nat
  label : String
  max_length : Option Nat
  required : Bool
deriving DecidableEq, Repr

/-- The parts of a report message the handlers read back: the first embed
title and url, the first mentioned-user reference (already rendered) and the
attachment list. -/
structure ReportMessage where
  embedTitle : String
  embedUrl : String
  mention : String
  attachments : List String
deriving DecidableEq, Repr

/-- The profile metadata used when posting a report (display name, username
and description from the profile collaborator). -/
structure PlayerInfo where
  displayName : String
  username : String
  blurb : String
deriving DecidableEq, Repr

/-- The externally observable calls a handler performs, in order. -/
inductive Effect where
  | deferReply
  | editReply (content : String)
  | lookupUsername (username : String)
  | fetchProfile (userId : Nat)
  | sendReportMessage (embedTitle : String) (embedUrl : String)
      (details : String) (buttonIds : List String)
  | showModal (customId : String) (title : String) (fields : List TextField)
  | createAction (actor : Identity) (target : Option Int) (request : ActionRequest)
  | fetchMessage (messageId : Option String)
  | sendLog (embedTitle : String) (description : String)
      (userFieldValue : String) (files : List String)
  | deleteMessage (messageId : Option String)
  | deferredUpdate
deriving DecidableEq, Repr

/-- Whether an effect is the Action Request call to the moderation-action
collaborator. -/
def Effect.isCreateAction : Effect → Bool
  | Effect.createAction _ _ _ => true
  | _ => false

/-- Whether an effect is one of the downstream calls the attachment size
check must forestall: the username lookup, the profile fetch, or posting the
report message. -/
def Effect.isDownstream : Effect → Bool
  | Effect.lookupUsername _ => true
  | Effect.fetchProfile _ => true
  | Effect.sendReportMessage _ _ _ _ => true
  | _ => false

/- ## Report command handler (main.ts lines 156-264) -/

/-- The validated options of the `report` command: required `username`,
required `details`, required `attachment` (its byte size). -/
structure ReportCommand where
  username : String
  details : String
  attachmentSize : Nat
deriving DecidableEq, Repr

/-- The chat-input branch of the InteractionCreate handler: defer the reply;
reject attachments over 25,000,000 bytes before anything else; resolve the
username to a numeric id; fetch the profile; post the report message with
the four fragment-encoded buttons; confirm. The collaborators
`getIdFromUsername` and `getPlayerInfo`/`getThumbnail` are environment
functions whose `none` result stands for a thrown error (the `catch`
branches of the source); thumbnail and attachment payloads are elided. -/
def handleReportCommand (resolveId : String → Option Nat)
    (getInfo : Nat → Option PlayerInfo) (cmd : ReportCommand) : List Effect :=
  Effect.deferReply ::
  (if cmd.attachmentSize > 25000000 then
    [Effect.editReply "❌ **Error**: Attachment must be less than 25MB in size"]
  else
    Effect.lookupUsername cmd.username ::
    (match resolveId cmd.username with
     | none =>
       [Effect.editReply ("❌ **Error**: Username \"" ++ cmd.username ++ "\" is invalid")]
     | some id =>
       Effect.fetchProfile id ::
       (match getInfo id with
        | none => [Effect.editReply "❌ **Error**: Failed to fetch user profile"]
        | some info =>
          [Effect.sendReportMessage
             (info.displayName ++ " (@" ++ info.username ++ ")")
             ("https://www.roblox.com/users/" ++ toString id ++ "/profile")
             cmd.details
             [encodeFragment "accept" [toString id, ActionType.BAN],
              encodeFragment "accept" [toString id, ActionType.DRAWBAN],
              encodeFragment "accept" [toString id, ActionType.MUTE],
              encodeFragment "decline" [toString id]],
           Effect.editReply "✅ Sent report!"])))

/- ## Component-click handler (main.ts lines 267-355) -/

/-- A component (button) interaction: its fragment-encoded identifier, the
id of the message the component sits on, and the clicking user id
(`interaction.user.toString()` renders as a mention of that id). -/
structure ComponentInteraction where
  customId : String
  messageId : String
  userId : String
deriving DecidableEq, Repr

/-- The message-component branch of the InteractionCreate handler. An
undecodable identifier is silently ignored. On `accept`, re-encode the
fragment with the origin message id threaded through and show the modal
(destructuring past the end of `args` yields `undefined`, which
`Array.prototype.join` renders as the empty string). On `decline`, fetch
the report message by the current message id — `fetchMsg` returning `none`
models the `if (message)` else-branch of the source — then post the log
entry and delete the message, or surface the error reply. -/
def handleComponent (fetchMsg : String → Option ReportMessage)
    (i : ComponentInteraction) : List Effect :=
  match decodeFragment i.customId with
  | none => []
  | some fragment =>
    if fragment.name = "accept" then
      [Effect.showModal
        (encodeFragment "accept"
          [(fragment.args.get? 0).getD "", (fragment.args.get? 1).getD "", i.messageId])
        ("Accept Report — " ++ (fragment.args.get? 1).getD "")
        [⟨"reason", TextInputStyle.Short, "Reason", some 50, true⟩,
         ⟨"notes", TextInputStyle.Paragraph, "Notes", none, false⟩,
         ⟨"duration", TextInputStyle.Short, "Duration", none, true⟩]]
    else if fragment.name = "decline" then
      match fetchMsg i.messageId with
      | some msg =>
        [Effect.sendLog "❌ Report Declined"
           ("<@" ++ i.userId ++ "> declined a report from " ++ msg.mention)
           ("[" ++ msg.embedTitle ++ "](" ++ msg.embedUrl ++ ")")
           msg.attachments,
         Effect.deleteMessage (some i.messageId)]
      | none =>
        [Effect.editReply ("❌ **Error**: Failed to find message with ID " ++ i.messageId)]
    else []

/- ## Modal-submit handler (main.ts lines 359-434) -/

/-- A modal-submit event: the submitting user id
(`data.user?.id ?? data.member?.user.id`), the fragment-encoded modal
identifier, and the text-input fields as `(custom_id, value)` pairs in
component order. -/
structure ModalSubmitData where
  userId : String
  customId : String
  fields : List (String × String)
deriving DecidableEq, Repr

/-- The `options` record built by the handler: text inputs written into a
record keyed by `custom_id`, a later field overriding an earlier one with
the same key; `none` models a key that was never written (`undefined`). -/
def optionsGet (fields : List (String × String)) (key : String) : Option String :=
  ((fields.filter (fun p => p.1 == key)).getLast?).map (fun p => p.2)

/-- Outcome of the modal-submit handler: the effect list it performed, and
whether it ran to completion or aborted on an uncaught error after the
listed effects (the source catches nothing in this handler). -/
inductive HandlerResult where
  | completed (effects : List Effect)
  | crashed (effects : List Effect)
deriving DecidableEq, Repr

/-- The effects a handler outcome performed, completed or not. -/
def HandlerResult.effects : HandlerResult → List Effect
  | HandlerResult.completed l => l
  | HandlerResult.crashed l => l

/-- The low-level INTERACTION_CREATE modal-submit handler. Decode the modal
identifier (silently ignore failures); on `accept`, destructure
`(id, type, messageId)` (`none` past the end of `args`), build the options
record, call `createAction` attributed to the submitting user with
`parseInt(id)` as target and `parseRelativeTime(options.duration) ??
undefined` as duration, fetch the original report message by the threaded
message id, post the log entry, delete the message, and acknowledge with a
silent deferred update. A missing `duration` field would make
`parseRelativeTime` throw on `undefined` before any call; a failing message
fetch throws after the action was already created — both uncaught. -/
def handleModalSubmit (fetchMsg : Option String → Option ReportMessage)
    (d : ModalSubmitData) : HandlerResult :=
  match decodeFragment d.customId with
  | none => HandlerResult.completed []
  | some fragment =>
    if fragment.name = "accept" then
      match optionsGet d.fields "duration" with
      | none => HandlerResult.crashed []
      | some durationText =>
        let act := Effect.createAction
          ⟨AccountPlatform.DISCORD, d.userId⟩
          ((fragment.args.get? 0).bind jsParseInt)
          ⟨fragment.args.get? 1,
           optionsGet d.fields "reason",
           optionsGet d.fields "notes",
           parseRelativeTime durationText⟩
        match fetchMsg (fragment.args.get? 2) with
        | none => HandlerResult.crashed [act, Effect.fetchMessage (fragment.args.get? 2)]
        | some msg =>
          HandlerResult.completed
            [act,
             Effect.fetchMessage (fragment.args.get? 2),
             Effect.sendLog "✅ Report Accepted"
               ("<@" ++ d.userId ++ "> accepted a report from " ++ msg.mention)
               ("[" ++ msg.embedTitle ++ "](" ++ msg.embedUrl ++ ")")
               msg.attachments,
             Effect.deleteMessage (fragment.args.get? 2),
             Effect.deferredUpdate]
    else HandlerResult.completed []


/- ## Sample environments used by witness instantiations -/

/-- A concrete report message used to instantiate witnesses. -/
def sampleMessage : ReportMessage :=
  ⟨"Builder (@builderman)", "https://www.roblox.com/users/156/profile", "<@7>", ["evidence.png"]⟩

/-- A message-fetch environment holding exactly the message with id 900. -/
def sampleFetchById : Option String → Option ReportMessage :=
  fun k => if k = some "900" then some sampleMessage else none

/-- A message-fetch environment in which every lookup fails. -/
def noMessageEnv : String → Option ReportMessage := fun _ => none

/-- A concrete modal submission with a parseable duration. -/
def sampleModalData : ModalSubmitData :=
  ⟨"55", "accept(123,MUTE,900)", [("reason", "spam"), ("notes", "repeat"), ("duration", "1h")]⟩

/-- A concrete modal submission whose duration parses to zero seconds. -/
def zeroDurationModalData : ModalSubmitData :=
  ⟨"55", "accept(123,MUTE,900)", [("reason", "spam"), ("notes", "repeat"), ("duration", "0s")]⟩

/-- A username-resolution environment returning id 156 for every name. -/
def sampleResolveId : String → Option Nat := fun _ => some 156

/-- A profile environment returning a fixed profile for every id. -/
def sampleGetInfo : Nat → Option PlayerInfo := fun _ => some ⟨"Builder", "builderman", "hello"⟩

/-- The sum of `parseInt(time) * unitMultiplier` over all matches of the
duration regex in the lowercased input (with an unrecognized unit counted
as zero); on every successful parse this is the returned total. -/
def rtMatchSum (input : String) : Nat :=
  ((findRTMatches (input.data.map Char.toLower)).map
    (fun p => digitsVal p.1 * (relativeTimeUnits (String.mk p.2)).getD 0)).sum

/- ## Helper lemmas: characters and strings -/

theorem string_mk_data (s : String) : String.mk s.data = s := rfl

theorem data_empty : ("" : String).data = [] := rfl

theorem data_lparen : ("(" : String).data = ['('] := rfl

theorem data_rparen : (")" : String).data = [')'] := rfl

theorem data_comma : ("," : String).data = [','] := rfl

theorem data_parens : ("()" : String).data = ['(', ')'] := rfl

/- ## Helper lemmas: takeWhile / dropWhile over a decomposed string -/

theorem takeWhile_all_append {α} (p : α → Bool) (l1 : List α) (b : α) (l2 : List α)
    (h1 : ∀ c ∈ l1, p c = true) (hb : p b = false) :
    (l1 ++ b :: l2).takeWhile p = l1 := by
  induction l1 with
  | nil => simp [List.takeWhile_cons, hb]
  | cons a l ih =>
    have ha : p a = true := h1 a (List.mem_cons_self a l)
    simp only [List.cons_append, List.takeWhile_cons, ha, if_true]
    exact congrArg (a :: ·) (ih fun c hc => h1 c (List.mem_cons_of_mem a hc))

theorem dropWhile_all_append {α} (p : α → Bool) (l1 : List α) (b : α) (l2 : List α)
    (h1 : ∀ c ∈ l1, p c = true) (hb : p b = false) :
    (l1 ++ b :: l2).dropWhile p = b :: l2 := by
  induction l1 with
  | nil => simp [List.dropWhile_cons, hb]
  | cons a l ih =>
    have ha : p a = true := h1 a (List.mem_cons_self a l)
    simp only [List.cons_append, List.dropWhile_cons, ha, if_true]
    exact ih fun c hc => h1 c (List.mem_cons_of_mem a hc)

/- ## Helper lemmas: joinComma and splitComma -/

theorem joinComma_data_cons_cons (a b : String) (rest : List String) :
    (joinComma (a :: b :: rest)).data = a.data ++ ',' :: (joinComma (b :: rest)).data := by
  simp [joinComma, String.data_append, data_comma]

theorem mem_joinComma (args : List String) (c : Char) (hc : c ∈ (joinComma args).data) :
    c = ',' ∨ ∃ a ∈ args, c ∈ a.data := by
  induction args with
  | nil => simp [joinComma, data_empty] at hc
  | cons a rest ih =>
    cases rest with
    | nil =>
      simp only [joinComma] at hc
      exact Or.inr ⟨a, List.mem_cons_self a [], hc⟩
    | cons b t =>
      rw [joinComma_data_cons_cons] at hc
      rcases List.mem_append.1 hc with h | h
      · exact Or.inr ⟨a, List.mem_cons_self a (b :: t), h⟩
      · rcases List.mem_cons.1 h with h | h
        · exact Or.inl h
        · rcases ih h with h | ⟨x, hx, hcx⟩
          · exact Or.inl h
          · exact Or.inr ⟨x, List.mem_cons_of_mem a hx, hcx⟩

theorem joinComma_data_ne_nil (args : List String) (h1 : args ≠ []) (h2 : args ≠ [""]) :
    (joinComma args).data ≠ [] := by
  match args with
  | [a] =>
    simp only [joinComma]
    intro h
    exact h2 (by rw [show a = "" from String.ext (h.trans data_empty.symm)])
  | a :: b :: t =>
    rw [joinComma_data_cons_cons]
    simp

theorem splitComma_ne_nil (cs : List Char) : splitComma cs ≠ [] := by
  cases cs with
  | nil => simp [splitComma]
  | cons c rest =>
    simp only [splitComma]
    split
    · simp
    · cases h : splitComma rest <;> simp [consHead]

theorem splitComma_no_comma (a : List Char) (h : ∀ c ∈ a, ¬ c = ',') :
    splitComma a = [a] := by
  induction a with
  | nil => rfl
  | cons c rest ih =>
    have hc : ¬ c = ',' := h c (List.mem_cons_self c rest)
    have hr := ih fun x hx => h x (List.mem_cons_of_mem c hx)
    simp [splitComma, hc, hr, consHead]

theorem splitComma_append (a l : List Char) (hd : List Char) (tl : List (List Char))
    (h : ∀ c ∈ a, ¬ c = ',') (hl : splitComma l = hd :: tl) :
    splitComma (a ++ l) = (a ++ hd) :: tl := by
  induction a with
  | nil => simpa using hl
  | cons c a ih =>
    have hc : ¬ c = ',' := h c (List.mem_cons_self c a)
    have hrec := ih fun x hx => h x (List.mem_cons_of_mem c hx)
    simp [splitComma, hc, hrec, consHead]

theorem splitComma_joinComma : ∀ (args : List String), args ≠ [] →
    (∀ a ∈ args, ∀ c ∈ a.data, ¬ c = ',') →
    splitComma (joinComma args).data = args.map String.data
  | [], h, _ => absurd rfl h
  | [a], _, h => by
    simp only [joinComma, List.map]
    exact splitComma_no_comma a.data (h a (List.mem_cons_self a []))
  | a :: b :: t, _, h => by
    rw [joinComma_data_cons_cons]
    have hrec := splitComma_joinComma (b :: t) (by simp)
      (fun x hx => h x (List.mem_cons_of_mem a hx))
    have hstep : splitComma (',' :: (joinComma (b :: t)).data)
        = [] :: (b :: t).map String.data := by
      simp [splitComma, hrec]
    rw [splitComma_append a.data (',' :: (joinComma (b :: t)).data) [] ((b :: t).map String.data)
      (h a (List.mem_cons_self a (b :: t))) hstep]
    simp

/- ## Helper lemmas: the fragment codec -/

theorem decode_encode (name : String) (args : List String)
    (hn : name.data ≠ []) (hw : ∀ c ∈ name.data, isWordChar c = true)
    (ha : args ≠ []) (ha2 : args ≠ [""])
    (hc : ∀ a ∈ args, ∀ c ∈ a.data, ¬ c = ',' ∧ isLineTerminator c = false) :
    decodeFragment (encodeFragment name args) = some ⟨name, args⟩ := by
  have hdata : (encodeFragment name args).data
      = name.data ++ '(' :: ((joinComma args).data ++ [')']) := by
    simp [encodeFragment, String.data_append, data_lparen, data_rparen]
  have hpar : isWordChar '(' = false := by decide
  have htake : (encodeFragment name args).data.takeWhile isWordChar = name.data := by
    rw [hdata]; exact takeWhile_all_append _ _ _ _ hw hpar
  have hdrop : (encodeFragment name args).data.dropWhile isWordChar
      = '(' :: ((joinComma args).data ++ [')']) := by
    rw [hdata]; exact dropWhile_all_append _ _ _ _ hw hpar
  obtain ⟨n0, ns, hns⟩ : ∃ n0 ns, name.data = n0 :: ns := by
    cases hnd : name.data
    · exact absurd hnd hn
    · exact ⟨_, _, rfl⟩
  have hinner : (joinComma args).data ≠ [] := joinComma_data_ne_nil args ha ha2
  have hlt : (joinComma args).data.any isLineTerminator = false := by
    rw [List.any_eq_false]
    intro c hcj
    rcases mem_joinComma args c hcj with h | ⟨a, haa, hca⟩
    · subst h; decide
    · simp [(hc a haa c hca).2]
  have hsplit := splitComma_joinComma args ha fun a haa c hca => (hc a haa c hca).1
  unfold decodeFragment decodeFragmentAux
  rw [htake, hdrop, hns]
  show decodeBody (n0 :: ns) ((joinComma args).data ++ [')']) = some ⟨name, args⟩
  unfold decodeBody
  rw [List.getLast?_concat, List.dropLast_concat]
  have hie : (joinComma args).data.isEmpty = false := by
    cases hj : (joinComma args).data
    · exact absurd hj hinner
    · rfl
  have hmaps : (args.map String.data).map String.mk = args := by
    rw [List.map_map]
    exact List.map_id'' (fun a => rfl) args
  rw [hie, hlt, hsplit, hmaps, ← hns, string_mk_data]
  rfl

theorem decode_no_lparen (s : String) (h : ∀ c ∈ s.data, ¬ c = '(') :
    decodeFragment s = none := by
  unfold decodeFragment decodeFragmentAux
  split
  · next n ns body htake hdrop =>
    have : '(' ∈ s.data := (List.dropWhile_sublist isWordChar).subset (by rw [hdrop]; simp)
    exact absurd rfl (h '(' this)
  · rfl

theorem decode_ne_rparen (s : String) (h : s.data.getLast? ≠ some ')') :
    decodeFragment s = none := by
  unfold decodeFragment decodeFragmentAux
  split
  · next n ns body htake hdrop =>
    unfold decodeBody
    split
    · next hlast =>
      have hbody : body ≠ [] := by
        intro hb; rw [hb] at hlast; exact Option.noConfusion hlast
      have hs : s.data = (n :: ns) ++ '(' :: body := by
        rw [← htake, ← hdrop, List.takeWhile_append_dropWhile]
      obtain ⟨b, bs, hb⟩ : ∃ b bs, body = b :: bs := by
        cases body
        · exact absurd rfl hbody
        · exact ⟨_, _, rfl⟩
      rw [hs, hb, List.getLast?_append_cons, List.getLast?_cons_cons] at h
      rw [hb] at hlast
      exact absurd hlast h
    · rfl
  · rfl

theorem decode_append_parens (name : String)
    (hn : name.data ≠ []) (hw : ∀ c ∈ name.data, isWordChar c = true) :
    decodeFragment (name ++ "()") = none := by
  have hdata : (name ++ "()").data = name.data ++ '(' :: [')'] := by
    simp [String.data_append, data_parens]
  have hpar : isWordChar '(' = false := by decide
  have htake : (name ++ "()").data.takeWhile isWordChar = name.data := by
    rw [hdata]; exact takeWhile_all_append _ _ _ _ hw hpar
  have hdrop : (name ++ "()").data.dropWhile isWordChar = '(' :: [')'] := by
    rw [hdata]; exact dropWhile_all_append _ _ _ _ hw hpar
  obtain ⟨n0, ns, hns⟩ : ∃ n0 ns, name.data = n0 :: ns := by
    cases hnd : name.data
    · exact absurd hnd hn
    · exact ⟨_, _, rfl⟩
  unfold decodeFragment decodeFragmentAux
  rw [htake, hdrop, hns]
  rfl

theorem encode_nil_eq (name : String) : encodeFragment name [] = name ++ "()" := by
  apply String.ext
  simp [encodeFragment, String.data_append, joinComma, data_empty, data_parens,
    data_lparen, data_rparen]

theorem encode_single_empty_eq (name : String) :
    encodeFragment name [""] = name ++ "()" := by
  apply String.ext
  simp [encodeFragment, String.data_append, joinComma, data_parens,
    data_lparen, data_rparen]

theorem decode_args_ne_nil (s : String) (f : Fragment)
    (h : decodeFragment s = some f) : f.args ≠ [] := by
  unfold decodeFragment decodeFragmentAux at h
  split at h
  · next n ns body htake hdrop =>
    unfold decodeBody at h
    split at h
    · next hlast =>
      split at h
      · exact Option.noConfusion h
      · have := Option.some.inj h
        intro hargs
        rw [← this] at hargs
        simp only [Fragment.mk.injEq] at hargs
        exact splitComma_ne_nil _ (List.map_eq_nil_iff.1 hargs)
    · exact Option.noConfusion h
  · exact Option.noConfusion h

/- ## Claim C1 -/

/-- C1, counterexample: the claim quantifies over every sequence of
comma-free argument strings, but the single empty-string argument — which
contains no comma — encodes to a string with an empty argument group, which
decodeFragment rejects, so the round trip fails there. -/
theorem C1_roundtrip_counterexample :
    decodeFragment (encodeFragment "a" [""]) = none ∧
    decodeFragment (encodeFragment "a" [""]) ≠ some ⟨"a", [""]⟩ := by
  constructor
  · decide
  · decide

/-- C1 (amended): fragment codec round trip. For every name matching
the word regex and every nonempty sequence of argument strings that is not
the single empty string (so the joined argument group is nonempty), each
argument free of commas and of line-terminator characters,
decodeFragment after encodeFragment returns exactly the name and the same
ordered argument sequence. -/
theorem C1_fragment_codec_roundtrip (name : String) (args : List String)
    (hn : name.data ≠ []) (hw : ∀ c ∈ name.data, isWordChar c = true)
    (ha : args ≠ []) (ha2 : args ≠ [""])
    (hc : ∀ a ∈ args, ∀ c ∈ a.data, ¬ c = ',' ∧ isLineTerminator c = false) :
    decodeFragment (encodeFragment name args) = some ⟨name, args⟩ :=
  decode_encode name args hn hw ha ha2 hc

/-- C1, witness: the round trip on the concrete button fragment of the
report flow. -/
theorem C1_roundtrip_witness :
    decodeFragment (encodeFragment "accept" ["123", "BAN"]) = some ⟨"accept", ["123", "BAN"]⟩ :=
  C1_fragment_codec_roundtrip "accept" ["123", "BAN"] (by decide) (by decide)
    (by decide) (by decide) (by decide)

/- ## Claim C6 -/

/-- C6, counterexample: decodeFragment does not reject every string with
unbalanced parentheses: in the string with one name character, two opening
parentheses and one closing parenthesis, the greedy argument capture
absorbs the inner opening parenthesis, and decoding succeeds. -/
theorem C6_unbalanced_counterexample :
    decodeFragment "a(()" = some ⟨"a", ["("]⟩ ∧ decodeFragment "a(()" ≠ none := by
  constructor
  · decide
  · decide

/-- C6 (amended): decodeFragment returns none for the empty string, for any
string containing neither parenthesis character, for any word name followed
by an empty argument group, and for any string whose last character is not
the closing parenthesis (in particular an unclosed opening parenthesis at
the end); it does not reject every unbalanced-parenthesis string. -/
theorem C6_decode_rejections :
    decodeFragment "" = none ∧
    (∀ s : String, (∀ c ∈ s.data, ¬ c = '(' ∧ ¬ c = ')') → decodeFragment s = none) ∧
    (∀ name : String, name.data ≠ [] → (∀ c ∈ name.data, isWordChar c = true) →
      decodeFragment (name ++ "()") = none) ∧
    (∀ s : String, s.data.getLast? ≠ some ')' → decodeFragment s = none) := by
  refine ⟨by decide, ?_, ?_, ?_⟩
  · intro s h
    exact decode_no_lparen s fun c hc => (h c hc).1
  · intro name hn hw
    exact decode_append_parens name hn hw
  · intro s h
    exact decode_ne_rparen s h

/-- C6, witness: the rejection clauses at concrete inputs — a string with
no parentheses, a word name with an empty argument group, and a string with
an unclosed opening parenthesis. -/
theorem C6_decode_rejections_witness :
    decodeFragment "abc" = none ∧
    decodeFragment ("name" ++ "()") = none ∧
    decodeFragment "name(arg" = none :=
  ⟨C6_decode_rejections.2.1 "abc" (by decide),
   C6_decode_rejections.2.2.1 "name" (by decide) (by decide),
   C6_decode_rejections.2.2.2 "name(arg" (by decide)⟩

/- ## Claim C9 -/

/-- C9: whenever decodeFragment succeeds the argument sequence is nonempty,
and encodeFragment applied to a word name and zero arguments (or to the
single empty-string argument) produces the name followed by an empty pair
of parentheses, which decodeFragment rejects — so the round trip cannot
hold for the empty argument sequence or for a single empty-string
argument. -/
theorem C9_decode_args_nonempty :
    (∀ (s : String) (f : Fragment), decodeFragment s = some f → f.args ≠ []) ∧
    (∀ name : String, name.data ≠ [] → (∀ c ∈ name.data, isWordChar c = true) →
      encodeFragment name [] = name ++ "()" ∧
      decodeFragment (encodeFragment name []) = none ∧
      decodeFragment (encodeFragment name [""]) = none) := by
  refine ⟨decode_args_ne_nil, fun name hn hw => ⟨encode_nil_eq name, ?_, ?_⟩⟩
  · rw [encode_nil_eq name]
    exact decode_append_parens name hn hw
  · rw [encode_single_empty_eq name]
    exact decode_append_parens name hn hw

/-- C9, witness: the nonempty-arguments invariant on a concrete decodable
identifier, and the rejection of the zero-argument encoding at a concrete
name. -/
theorem C9_decode_args_nonempty_witness :
    (Fragment.mk "x" ["1"]).args ≠ [] ∧
    decodeFragment (encodeFragment "decline" []) = none :=
  ⟨C9_decode_args_nonempty.1 "x(1)" ⟨"x", ["1"]⟩ (by decide),
   (C9_decode_args_nonempty.2 "decline" (by decide) (by decide)).2.1⟩

/- ## Helper lemmas: the duration parser accumulation loop -/

theorem sumMatches_some (ms : List (List Char × List Char)) (acc n : Nat)
    (h : sumMatches ms acc = some n) :
    n = acc + (ms.map (fun p => digitsVal p.1 * (relativeTimeUnits (String.mk p.2)).getD 0)).sum := by
  induction ms generalizing acc with
  | nil =>
    simp only [sumMatches] at h
    simp [← Option.some.inj h]
  | cons p rest ih =>
    obtain ⟨ds, us⟩ := p
    simp only [sumMatches] at h
    cases hu : relativeTimeUnits (String.mk us) with
    | none => rw [hu] at h; exact Option.noConfusion h
    | some m =>
      rw [hu] at h
      have := ih _ h
      simp only [List.map_cons, List.sum_cons, hu, Option.getD_some]
      omega

theorem sumMatches_none_iff (ms : List (List Char × List Char)) (acc : Nat) :
    sumMatches ms acc = none ↔ ∃ p ∈ ms, relativeTimeUnits (String.mk p.2) = none := by
  induction ms generalizing acc with
  | nil => simp [sumMatches]
  | cons p rest ih =>
    obtain ⟨ds, us⟩ := p
    simp only [sumMatches]
    cases hu : relativeTimeUnits (String.mk us) with
    | none => simp [hu]
    | some m =>
      rw [ih]
      simp [hu]

/- ## Claim C4 -/

/-- C4, counterexample: the claim lists the example that one day and two
hours parse to 90000 seconds, but the code sums 86400 + 2 * 3600 = 93600. -/
theorem C4_duration_sum_counterexample :
    parseRelativeTime "1d 2h" = some 93600 ∧ parseRelativeTime "1d 2h" ≠ some 90000 := by
  constructor
  · decide
  · decide

/-- C4 (amended): parseRelativeTime returns the sum of integer times
unit-multiplier over all matched integer-unit tokens of the lowercased
input, units looked up case-insensitively and duplicate units accumulated
rather than overridden; concretely one day gives 86400, one day and two
hours give 93600, two weeks give 1209600, an uppercase day unit gives
86400, and a repeated day token gives 172800. -/
theorem C4_duration_parser_sums (input : String) (n : Nat) :
    (parseRelativeTime input = some n → n = rtMatchSum input) ∧
    parseRelativeTime "1d" = some 86400 ∧
    parseRelativeTime "1d 2h" = some 93600 ∧
    parseRelativeTime "2w" = some 1209600 ∧
    parseRelativeTime "1D" = some 86400 ∧
    parseRelativeTime "1d 1d" = some 172800 := by
  refine ⟨?_, by decide, by decide, by decide, by decide, by decide⟩
  intro h
  unfold parseRelativeTime at h
  split at h
  · exact Option.noConfusion h
  · simpa [rtMatchSum] using sumMatches_some _ _ _ h

/-- C4, witness: the sum characterization applied at the concrete input of
one day. -/
theorem C4_duration_parser_sums_witness : (86400 : Nat) = rtMatchSum "1d" :=
  (C4_duration_parser_sums "1d" 86400).1 (by decide)

/- ## Claim C5 -/

/-- C5: parseRelativeTime fails exactly when the input has no match of the
token regex or some matched unit of the lowercased input is missing from
the unit table (in which case the whole parse fails with no partial
result), and concretely it fails on the unrecognized unit word and on the
empty string. -/
theorem C5_duration_parser_failure :
    (∀ input : String,
      parseRelativeTime input = none ↔
        (findRTMatches input.data = [] ∨
         ∃ p ∈ findRTMatches (input.data.map Char.toLower),
           relativeTimeUnits (String.mk p.2) = none)) ∧
    parseRelativeTime "5 foos" = none ∧
    parseRelativeTime "" = none := by
  refine ⟨?_, by decide, by decide⟩
  intro input
  unfold parseRelativeTime
  split
  · next hempty => simp [hempty]
  · next hne =>
    rw [sumMatches_none_iff]
    constructor
    · exact Or.inr
    · rintro (h | h)
      · exact absurd h hne
      · exact h

/- ## Helper lemmas: the modal-submit accept flow -/

theorem handleModalSubmit_accept_eq (fetchMsg : Option String → Option ReportMessage)
    (d : ModalSubmitData) (s a m dv : String) (msg : ReportMessage)
    (hdec : decodeFragment d.customId = some ⟨"accept", [s, a, m]⟩)
    (hdur : optionsGet d.fields "duration" = some dv)
    (hmsg : fetchMsg (some m) = some msg) :
    handleModalSubmit fetchMsg d = HandlerResult.completed
      [Effect.createAction ⟨AccountPlatform.DISCORD, d.userId⟩ (jsParseInt s)
         ⟨some a, optionsGet d.fields "reason", optionsGet d.fields "notes",
          parseRelativeTime dv⟩,
       Effect.fetchMessage (some m),
       Effect.sendLog "✅ Report Accepted"
         ("<@" ++ d.userId ++ "> accepted a report from " ++ msg.mention)
         ("[" ++ msg.embedTitle ++ "](" ++ msg.embedUrl ++ ")")
         msg.attachments,
       Effect.deleteMessage (some m),
       Effect.deferredUpdate] := by
  unfold handleModalSubmit
  rw [hdec]
  simp only [List.get?]
  simp [hdur, hmsg, Option.bind]

/- ## Claim C2 -/

/-- C2: on a modal submission whose identifier decodes to an accept
fragment with arguments (subjectId, actionType, originMessageId), the
handler performs, in order: exactly one Action Request attributed to the
submitting reviewer via the chat-platform identity, with type the
actionType, target the numeric subjectId, the reason and notes of the
modal, and duration the parsed second count of the duration field —
the duration field staying omitted (none) exactly when parsing fails; then
the fetch of the original report message by originMessageId, then a log
entry, and only afterwards the deletion of the report message. -/
theorem C2_accept_modal_submit_flow (fetchMsg : Option String → Option ReportMessage)
    (d : ModalSubmitData) (s a m dv : String) (nId : Int) (msg : ReportMessage)
    (hdec : decodeFragment d.customId = some ⟨"accept", [s, a, m]⟩)
    (hdur : optionsGet d.fields "duration" = some dv)
    (hmsg : fetchMsg (some m) = some msg)
    (hid : jsParseInt s = some nId) :
    handleModalSubmit fetchMsg d = HandlerResult.completed
      [Effect.createAction ⟨AccountPlatform.DISCORD, d.userId⟩ (some nId)
         ⟨some a, optionsGet d.fields "reason", optionsGet d.fields "notes",
          parseRelativeTime dv⟩,
       Effect.fetchMessage (some m),
       Effect.sendLog "✅ Report Accepted"
         ("<@" ++ d.userId ++ "> accepted a report from " ++ msg.mention)
         ("[" ++ msg.embedTitle ++ "](" ++ msg.embedUrl ++ ")")
         msg.attachments,
       Effect.deleteMessage (some m),
       Effect.deferredUpdate] ∧
    ((handleModalSubmit fetchMsg d).effects.countP Effect.isCreateAction = 1) ∧
    (parseRelativeTime dv = none →
      ∀ actor target request rest,
        (handleModalSubmit fetchMsg d).effects = Effect.createAction actor target request :: rest →
        request.duration = none) := by
  have heq := handleModalSubmit_accept_eq fetchMsg d s a m dv msg hdec hdur hmsg
  rw [hid] at heq
  refine ⟨heq, ?_, ?_⟩
  · rw [heq]
    simp [HandlerResult.effects, List.countP, List.countP.go, Effect.isCreateAction]
  · intro hnone actor target request rest hfx
    rw [heq] at hfx
    simp only [HandlerResult.effects] at hfx
    have : request = ⟨some a, optionsGet d.fields "reason", optionsGet d.fields "notes",
        parseRelativeTime dv⟩ := by
      have h1 := (List.cons.inj hfx).1
      exact (Effect.createAction.inj h1.symm).2.2
    rw [this, hnone]

/-- C2, witness: the full accept flow on a concrete modal submission with a
one-hour duration. -/
theorem C2_accept_modal_submit_flow_witness :
    handleModalSubmit sampleFetchById sampleModalData = HandlerResult.completed
      [Effect.createAction ⟨"DISCORD", "55"⟩ (some 123)
         ⟨some "MUTE", some "spam", some "repeat", some 3600⟩,
       Effect.fetchMessage (some "900"),
       Effect.sendLog "✅ Report Accepted" "<@55> accepted a report from <@7>"
         "[Builder (@builderman)](https://www.roblox.com/users/156/profile)"
         ["evidence.png"],
       Effect.deleteMessage (some "900"),
       Effect.deferredUpdate] :=
  (C2_accept_modal_submit_flow sampleFetchById sampleModalData "123" "MUTE" "900" "1h"
    123 sampleMessage (by decide) (by decide) (by decide) (by decide)).1

/- ## Claim C10 -/

/-- C10: a duration input whose recognized tokens sum to zero, such as the
zero-second token, is a successful parse — parseRelativeTime returns zero
rather than the failure signal — and the modal-submit handler then includes
duration zero in the Action Request rather than omitting the field. -/
theorem C10_zero_duration_included (fetchMsg : Option String → Option ReportMessage)
    (d : ModalSubmitData) (s a m : String) (msg : ReportMessage)
    (hdec : decodeFragment d.customId = some ⟨"accept", [s, a, m]⟩)
    (hdur : optionsGet d.fields "duration" = some "0s")
    (hmsg : fetchMsg (some m) = some msg) :
    parseRelativeTime "0s" = some 0 ∧
    handleModalSubmit fetchMsg d = HandlerResult.completed
      [Effect.createAction ⟨AccountPlatform.DISCORD, d.userId⟩ (jsParseInt s)
         ⟨some a, optionsGet d.fields "reason", optionsGet d.fields "notes", some 0⟩,
       Effect.fetchMessage (some m),
       Effect.sendLog "✅ Report Accepted"
         ("<@" ++ d.userId ++ "> accepted a report from " ++ msg.mention)
         ("[" ++ msg.embedTitle ++ "](" ++ msg.embedUrl ++ ")")
         msg.attachments,
       Effect.deleteMessage (some m),
       Effect.deferredUpdate] := by
  have heq := handleModalSubmit_accept_eq fetchMsg d s a m "0s" msg hdec hdur hmsg
  rw [show parseRelativeTime "0s" = some 0 from by decide] at heq
  exact ⟨by decide, heq⟩

/-- C10, witness: the zero-second duration flows into the Action Request at
a concrete modal submission. -/
theorem C10_zero_duration_included_witness :
    parseRelativeTime "0s" = some 0 ∧
    handleModalSubmit sampleFetchById zeroDurationModalData = HandlerResult.completed
      [Effect.createAction ⟨"DISCORD", "55"⟩ (some 123)
         ⟨some "MUTE", some "spam", some "repeat", some 0⟩,
       Effect.fetchMessage (some "900"),
       Effect.sendLog "✅ Report Accepted" "<@55> accepted a report from <@7>"
         "[Builder (@builderman)](https://www.roblox.com/users/156/profile)"
         ["evidence.png"],
       Effect.deleteMessage (some "900"),
       Effect.deferredUpdate] :=
  C10_zero_duration_included sampleFetchById zeroDurationModalData "123" "MUTE" "900"
    sampleMessage (by decide) (by decide) (by decide)

/- ## Claim C3 -/

/-- C3: clicking decline on a report whose message is already gone surfaces
exactly one visible error to the clicker, naming the missing message id,
and performs no log-channel write and no message deletion. -/
theorem C3_decline_missing_message (fetchMsg : String → Option ReportMessage)
    (i : ComponentInteraction) (args : List String)
    (hdec : decodeFragment i.customId = some ⟨"decline", args⟩)
    (hmiss : fetchMsg i.messageId = none) :
    handleComponent fetchMsg i =
      [Effect.editReply ("❌ **Error**: Failed to find message with ID " ++ i.messageId)] ∧
    (∀ e ∈ handleComponent fetchMsg i,
      (∀ t desc uf files, ¬ e = Effect.sendLog t desc uf files) ∧
      (∀ mid, ¬ e = Effect.deleteMessage mid)) := by
  have heq : handleComponent fetchMsg i =
      [Effect.editReply ("❌ **Error**: Failed to find message with ID " ++ i.messageId)] := by
    unfold handleComponent
    rw [hdec]
    simp [hmiss]
  refine ⟨heq, ?_⟩
  rw [heq]
  intro e he
  rw [List.mem_singleton] at he
  subst he
  exact ⟨fun t desc uf files h => Effect.noConfusion h,
         fun mid h => Effect.noConfusion h⟩

/-- C3, witness: the decline click at a concrete interaction whose message
lookup fails. -/
theorem C3_decline_missing_message_witness :
    handleComponent noMessageEnv ⟨"decline(123)", "42", "9"⟩ =
      [Effect.editReply "❌ **Error**: Failed to find message with ID 42"] :=
  (C3_decline_missing_message noMessageEnv ⟨"decline(123)", "42", "9"⟩ ["123"]
    (by decide) (by decide)).1

/- ## Claim C8 -/

/-- C8: clicking an accept button whose fragment decodes to
(subjectId, actionType) responds with exactly one modal whose identifier is
the re-encoded accept fragment threading through the id of the message the
button was on, and whose fields are exactly the required bounded-length
reason, the optional notes, and the required free-text duration. -/
theorem C8_accept_click_shows_modal (fetchMsg : String → Option ReportMessage)
    (i : ComponentInteraction) (s a : String)
    (hdec : decodeFragment i.customId = some ⟨"accept", [s, a]⟩) :
    handleComponent fetchMsg i =
      [Effect.showModal (encodeFragment "accept" [s, a, i.messageId])
        ("Accept Report — " ++ a)
        [⟨"reason", TextInputStyle.Short, "Reason", some 50, true⟩,
         ⟨"notes", TextInputStyle.Paragraph, "Notes", none, false⟩,
         ⟨"duration", TextInputStyle.Short, "Duration", none, true⟩]] := by
  unfold handleComponent
  rw [hdec]
  simp [List.get?]

/-- C8, witness: the accept click on a concrete mute button. -/
theorem C8_accept_click_shows_modal_witness :
    handleComponent noMessageEnv ⟨"accept(123,MUTE)", "42", "9"⟩ =
      [Effect.showModal "accept(123,MUTE,42)" "Accept Report — MUTE"
        [⟨"reason", TextInputStyle.Short, "Reason", some 50, true⟩,
         ⟨"notes", TextInputStyle.Paragraph, "Notes", none, false⟩,
         ⟨"duration", TextInputStyle.Short, "Duration", none, true⟩]] :=
  C8_accept_click_shows_modal noMessageEnv ⟨"accept(123,MUTE)", "42", "9"⟩ "123" "MUTE"
    (by decide)

/- ## Claim C7 -/

/-- C7: an attachment of exactly 25,000,000 bytes proceeds past the size
check (the username lookup is attempted next), while one byte over replies
with the size error and returns with no downstream call — no username
lookup, no profile fetch, and no report message posted. -/
theorem C7_attachment_size_boundary (resolveId : String → Option Nat)
    (getInfo : Nat → Option PlayerInfo) (cmd : ReportCommand) :
    (cmd.attachmentSize = 25000000 →
      ∃ rest, handleReportCommand resolveId getInfo cmd =
        Effect.deferReply :: Effect.lookupUsername cmd.username :: rest) ∧
    (cmd.attachmentSize = 25000001 →
      handleReportCommand resolveId getInfo cmd =
        [Effect.deferReply,
         Effect.editReply "❌ **Error**: Attachment must be less than 25MB in size"] ∧
      ∀ e ∈ handleReportCommand resolveId getInfo cmd, e.isDownstream = false) := by
  constructor
  · intro hsz
    unfold handleReportCommand
    rw [hsz]
    simp only [show ¬ (25000000 > 25000000) from by omega, if_false]
    exact ⟨_, rfl⟩
  · intro hsz
    have heq : handleReportCommand resolveId getInfo cmd =
        [Effect.deferReply,
         Effect.editReply "❌ **Error**: Attachment must be less than 25MB in size"] := by
      unfold handleReportCommand
      rw [hsz]
      simp only [show (25000001 > 25000000) = True from by simp, if_true]
    refine ⟨heq, ?_⟩
    rw [heq]
    intro e he
    rcases List.mem_cons.1 he with h | h
    · subst h; rfl
    · rw [List.mem_singleton] at h; subst h; rfl

/-- C7, witness: the boundary behavior at concrete commands of exactly the
ceiling and one byte over. -/
theorem C7_attachment_size_boundary_witness :
    (∃ rest, handleReportCommand sampleResolveId sampleGetInfo ⟨"u", "details", 25000000⟩ =
      Effect.deferReply :: Effect.lookupUsername "u" :: rest) ∧
    handleReportCommand sampleResolveId sampleGetInfo ⟨"u", "details", 25000001⟩ =
      [Effect.deferReply,
       Effect.editReply "❌ **Error**: Attachment must be less than 25MB in size"] :=
  ⟨(C7_attachment_size_boundary sampleResolveId sampleGetInfo ⟨"u", "details", 25000000⟩).1 rfl,
   ((C7_attachment_size_boundary sampleResolveId sampleGetInfo ⟨"u", "details", 25000001⟩).2 rfl).1⟩
